import Mathlib

/-
  Verification development for the sthira execution-control kernel.

  Shallow embedding of the kernel from the TypeScript source:
  Task (packages/core/src/task/Task.ts), Worker (Worker.ts),
  Handler (Handler.ts), Stream (Stream.ts), TaskTable, ScopeFSM, Scope,
  WorkerPool and the Authority broadcast mediator.

  Mutable objects are modelled by explicit state passing; promise
  settlement by Except; the user-supplied async functions by a finite
  behaviour grammar (return a value, throw, spawn a worker); the points
  where the host event loop may interleave an abort are explicit Bool
  parameters.
-/

deriving instance DecidableEq for Except

namespace Sthira

/-- Task.status values from packages/core/src/types. -/
inductive TaskStatus
  | pending
  | running
  | success
  | error
  | aborted
  deriving DecidableEq, Repr

/-- TaskOutcome from Task.ts. -/
inductive TaskOutcome
  | success
  | error
  | aborted
  deriving DecidableEq, Repr

/-- WorkerStatus from Worker.ts. -/
inductive WorkerStatus
  | idle
  | running
  | terminated
  | failed
  deriving DecidableEq, Repr

/-- HandlerStatus from Handler.ts. -/
inductive HandlerStatus
  | pending
  | running
  | completed
  | failed
  | cancelled
  deriving DecidableEq, Repr

/-- StreamStatus from Stream.ts; the source value `open` is a Lean keyword,
rendered here as `opened`. -/
inductive StreamStatus
  | opened
  | closed
  | aborted
  deriving DecidableEq, Repr

/-- Model of JavaScript Error values: kernel-constructed errors carry their
message string, user-thrown errors an opaque code. -/
inductive ErrVal
  | internal (msg : String)
  | user (code : Nat)
  deriving DecidableEq, Repr

/-- The generic error `new Error` with message `Task was aborted` thrown by
Task.run on abort paths. -/
def taskAbortedErr : ErrVal := .internal "Task was aborted"

/-- Behaviour of a user-supplied worker function: it either resolves or
rejects with an error. -/
inductive FnOutcome
  | ret
  | throwE (e : ErrVal)
  deriving DecidableEq, Repr

/-- Worker from Worker.ts: status, own AbortController signal, error slot. -/
structure Worker where
  taskRef : String
  status : WorkerStatus
  signalAborted : Bool
  error : Option ErrVal
  deriving DecidableEq, Repr

/-- Worker constructor: idle, fresh controller, no error. -/
def Worker.new (taskRef : String) : Worker :=
  ⟨taskRef, .idle, false, none⟩

/-- Worker.isActive getter. -/
def Worker.isActive (w : Worker) : Bool :=
  w.status == .idle || w.status == .running

/-- Worker.terminate: if active, abort the signal and mark terminated;
idempotent, never moves failed to terminated. -/
def Worker.terminate (w : Worker) : Worker :=
  if w.isActive then { w with signalAborted := true, status := .terminated }
  else w

/-- Result of Worker.start: final worker state, the settlement of the
returned promise, and whether the body ran. -/
structure WorkerStartResult where
  worker : Worker
  res : Except ErrVal Unit
  started : Bool
  deriving DecidableEq, Repr

/-- Worker.start from Worker.ts. `terminatedDuring` models a terminate()
call arriving while the awaited function is in flight. -/
def Worker.start (w : Worker) (fb : FnOutcome) (terminatedDuring : Bool) :
    WorkerStartResult :=
  if w.status != .idle then
    ⟨w, .error (.internal "Cannot start worker: not idle"), false⟩
  else
    let w1 : Worker := { w with status := WorkerStatus.running }
    let w2 := if terminatedDuring then w1.terminate else w1
    match fb with
    | .ret =>
      if w2.status == .running then ⟨{ w2 with status := .terminated }, .ok (), true⟩
      else ⟨w2, .ok (), true⟩
    | .throwE e =>
      if w2.signalAborted then ⟨{ w2 with status := .terminated }, .ok (), true⟩
      else ⟨{ w2 with status := .failed, error := some e }, .error e, true⟩

/-- Handler from Handler.ts (the fields Task.abort touches). -/
structure Handler where
  taskRef : String
  status : HandlerStatus
  error : Option ErrVal
  cancelled : Bool
  fnSet : Bool
  deriving DecidableEq, Repr

/-- Handler.cancel: ignored for completed/failed; sets the cancel flag and
jumps pending to cancelled. -/
def Handler.cancel (h : Handler) : Handler :=
  if h.status == .completed || h.status == .failed then h
  else
    let h1 : Handler := { h with cancelled := true }
    if h1.status == .pending then { h1 with status := .cancelled } else h1

/-- Stream from Stream.ts (the fields Task.abort touches); subscribers are
identified by numbers, the buffer holds emitted values. -/
structure Stream where
  taskRef : String
  status : StreamStatus
  buffer : List Nat
  subscribers : List Nat
  deriving DecidableEq, Repr

/-- Stream.abort: only from open; marks aborted and clears subscribers. -/
def Stream.abort (s : Stream) : Stream :=
  if s.status != .opened then s
  else { s with status := .aborted, subscribers := [] }

/-- Task from Task.ts. `serial` models JavaScript object identity (two
distinct Task objects never share a serial). Results are modelled as Nat. -/
structure Task where
  serial : Nat
  ref : String
  scopeId : String
  status : TaskStatus
  outcome : Option TaskOutcome
  error : Option ErrVal
  result : Option Nat
  signalAborted : Bool
  workers : List Worker
  handlers : List Handler
  streams : List Stream
  deriving DecidableEq, Repr

/-- Task constructor: pending, no outcome, fresh AbortController. -/
def Task.new (serial : Nat) (scopeId ref : String) : Task :=
  ⟨serial, ref, scopeId, .pending, none, none, none, false, [], [], []⟩

/-- Task.isActive getter: pending or running. -/
def Task.isActive (t : Task) : Bool :=
  t.status == .pending || t.status == .running

/-- Task.abort: no-op unless active; raises the signal, terminates owned
workers, cancels handlers, aborts streams, then settles as aborted. -/
def Task.abort (t : Task) : Task :=
  if !t.isActive then t
  else
    { t with
      signalAborted := true
      workers := t.workers.map Worker.terminate
      handlers := t.handlers.map Handler.cancel
      streams := t.streams.map Stream.abort
      status := .aborted
      outcome := some .aborted }

/-- Statuses Task.abort assigns, in order (for trace reasoning). -/
def Task.abortAssigns (t : Task) : List TaskStatus :=
  if t.isActive then [.aborted] else []

/-- Operations the user function may perform on the TaskContext. Only
spawnWorker is needed by the claims under study. -/
inductive CtxOp
  | spawnWorker (fb : FnOutcome) (terminatedDuring : Bool)
  deriving DecidableEq, Repr

/-- What Task.run settles with when the user function body finishes. -/
inductive RunFnOutcome
  | ret (v : Nat)
  | throwE (e : ErrVal)
  deriving DecidableEq, Repr

/-- Behaviour of the user function handed to Task.run: the context
operations it performs, then how it settles. -/
structure RunFn where
  ops : List CtxOp
  outcome : RunFnOutcome
  deriving DecidableEq, Repr

/-- Task._spawnWorker: requires isActive; registers a fresh Worker and
starts it. The start rejection is swallowed by the source catch with the
comment `Worker errors tracked in worker.error`, so only the final worker
state is kept and no error escapes to the task. -/
def Task.spawnWorkerOp (t : Task) (fb : FnOutcome) (td : Bool) :
    Task × Option ErrVal :=
  if !t.isActive then
    (t, some (.internal "Cannot spawn worker: task is not active"))
  else
    let r := Worker.start (Worker.new t.ref) fb td
    ({ t with workers := t.workers ++ [r.worker] }, none)

/-- Run the context operations of the user function in order; a raised
error rejects the function body at that point. -/
def Task.applyCtxOps : Task → List CtxOp → Task × Option ErrVal
  | t, [] => (t, none)
  | t, CtxOp.spawnWorker fb td :: rest =>
    match Task.spawnWorkerOp t fb td with
    | (t1, none) => Task.applyCtxOps t1 rest
    | (t1, some e) => (t1, some e)

/-- Settlement of the awaited user function: runs the context operations,
then resolves with the declared value or rejects. -/
def Task.fnSettle (t : Task) (fn : RunFn) : Task × Except ErrVal Nat :=
  let p := Task.applyCtxOps t fn.ops
  (p.1,
    match p.2 with
    | some e => .error e
    | none =>
      match fn.outcome with
      | .ret v => .ok v
      | .throwE e => .error e)

/-- Result of Task.run: final task state, promise settlement, whether the
user function was invoked, and the statuses assigned during the call. -/
structure RunRes where
  task : Task
  res : Except ErrVal Nat
  fnInvoked : Bool
  trace : List TaskStatus
  deriving DecidableEq, Repr

/-- Task.run from Task.ts. Requires status pending, moves to running,
checks the signal before and after awaiting the function, and finalizes as
success, error or aborted. `abortDuring` models a Task.abort call arriving
while the function is in flight; the trace records every status
assignment the source performs, in order. -/
def Task.run (t : Task) (fn : RunFn) (abortDuring : Bool) : RunRes :=
  if t.status != .pending then
    ⟨t, .error (.internal "Cannot run task: status is not pending"), false, []⟩
  else
    let t1 : Task := { t with status := TaskStatus.running }
    if t1.signalAborted then
      let t2 : Task := { t1 with status := .aborted, outcome := some .aborted }
      ⟨t2, .error (t2.error.getD taskAbortedErr), false,
        [.running, .aborted, .aborted]⟩
    else
      let s := Task.fnSettle t1 fn
      let t2 := s.1
      let t3 := if abortDuring then t2.abort else t2
      let abTr : List TaskStatus := if abortDuring then [.aborted] else []
      match s.2 with
      | .ok v =>
        if t3.signalAborted then
          let t4 : Task := { t3 with status := .aborted, outcome := some .aborted }
          ⟨t4, .error (t4.error.getD taskAbortedErr), true,
            [TaskStatus.running] ++ abTr ++ [.aborted, .aborted]⟩
        else
          ⟨{ t3 with result := some v, status := .success, outcome := some .success },
            .ok v, true, [TaskStatus.running] ++ abTr ++ [.success]⟩
      | .error e =>
        if t3.signalAborted then
          let t4 : Task := { t3 with status := .aborted, outcome := some .aborted }
          ⟨t4, .error (t4.error.getD taskAbortedErr), true,
            [TaskStatus.running] ++ abTr ++ [.aborted]⟩
        else
          ⟨{ t3 with status := .error, outcome := some .error, error := some e },
            .error e, true, [TaskStatus.running] ++ abTr ++ [.error]⟩

/-- Observable operations on one Task object. -/
inductive TaskOp
  | runTask (fn : RunFn) (abortDuring : Bool)
  | abortTask
  deriving Repr

/-- Apply one operation to a task, keeping the resulting task state. -/
def Task.applyOp (t : Task) : TaskOp → Task
  | .runTask fn ad => (t.run fn ad).task
  | .abortTask => t.abort

/-- Apply a sequence of operations to a task. -/
def Task.applyOps (t : Task) (ops : List TaskOp) : Task :=
  ops.foldl Task.applyOp t

/-- FSM states from ScopeFSM.ts. -/
inductive FSMState
  | INIT
  | ATTACHED
  | RUNNING
  | SUSPENDED
  | DISPOSING
  | DISPOSED
  deriving DecidableEq, Repr

/-- FSM events from ScopeFSM.ts. -/
inductive FSMEvent
  | mounted
  | taskStarted
  | suspend
  | resume
  | dispose
  deriving DecidableEq, Repr

/-- ScopeFSM.transition: the switch statement of ScopeFSM.ts, returning the
new state. The source returns true iff the state changed. -/
def ScopeFSM.transition (s : FSMState) (e : FSMEvent) : FSMState :=
  match s with
  | .INIT => if e == .mounted then .ATTACHED else .INIT
  | .ATTACHED =>
    if e == .taskStarted then .RUNNING
    else if e == .dispose then .DISPOSING
    else .ATTACHED
  | .RUNNING =>
    if e == .suspend then .SUSPENDED
    else if e == .dispose then .DISPOSING
    else .RUNNING
  | .SUSPENDED =>
    if e == .resume then .RUNNING
    else if e == .dispose then .DISPOSING
    else .SUSPENDED
  | .DISPOSING => .DISPOSED
  | .DISPOSED => .DISPOSED

/-- ScopeFSM.canExecute: ATTACHED or RUNNING. -/
def ScopeFSM.canExecute (s : FSMState) : Bool :=
  s == .ATTACHED || s == .RUNNING

/-- ScopeFSM.isAlive: not DISPOSING and not DISPOSED. -/
def ScopeFSM.isAlive (s : FSMState) : Bool :=
  s != .DISPOSING && s != .DISPOSED

/-- TaskTable.register: Map.set keyed by ref, so an existing key is
overwritten in place and a new key is appended in insertion order. -/
def TaskTable.register (tbl : List Task) (t : Task) : List Task :=
  if tbl.any (fun u => u.ref == t.ref) then
    tbl.map (fun u => if u.ref == t.ref then t else u)
  else tbl ++ [t]

/-- TaskTable.unregister by ref. -/
def TaskTable.unregister (tbl : List Task) (ref : String) : List Task :=
  tbl.filter (fun u => u.ref != ref)

/-- TaskTable.abortAll: calls Task.abort on every task of the scope. -/
def TaskTable.abortAll (tbl : List Task) (scopeId : String) : List Task :=
  tbl.map (fun u => if u.scopeId == scopeId then u.abort else u)

/-- Scope from Scope.ts: id, name, FSM, TaskTable. `nextSerial` feeds the
object-identity serials of the Tasks it constructs. -/
structure Scope where
  id : String
  name : String
  fsm : FSMState
  tasks : List Task
  nextSerial : Nat
  deriving DecidableEq, Repr

/-- Scope constructor: INIT state, empty table. -/
def Scope.new (id name : String) : Scope :=
  ⟨id, name, .INIT, [], 0⟩

/-- Scope.mount: requests the mounted transition. -/
def Scope.mount (s : Scope) : Scope :=
  { s with fsm := ScopeFSM.transition s.fsm .mounted }

/-- Scope.dispose: no-op unless alive; aborts all tasks of the scope, then
drives the FSM with dispose twice in succession. -/
def Scope.dispose (s : Scope) : Scope :=
  if !ScopeFSM.isAlive s.fsm then s
  else
    { s with
      tasks := TaskTable.abortAll s.tasks s.id
      fsm := ScopeFSM.transition (ScopeFSM.transition s.fsm .dispose) .dispose }

/-- Scope.createTask: fails when not alive or not ready; constructs a Task
with the explicit ref or a kernel-generated one (`genRef` stands for the
draw of generateRef), registers it, and fires taskStarted from ATTACHED. -/
def Scope.createTask (s : Scope) (refOpt : Option String) (genRef : String) :
    Except ErrVal (Scope × Task) :=
  if !ScopeFSM.isAlive s.fsm then
    .error (.internal ("Cannot create task: scope " ++ s.name ++ " is disposed"))
  else if !ScopeFSM.canExecute s.fsm then
    .error (.internal ("Cannot create task: scope " ++ s.name ++ " is not ready"))
  else
    let t := Task.new s.nextSerial s.id (refOpt.getD genRef)
    let fsm1 :=
      if s.fsm == .ATTACHED then ScopeFSM.transition s.fsm .taskStarted else s.fsm
    .ok ({ s with
            tasks := TaskTable.register s.tasks t
            nextSerial := s.nextSerial + 1
            fsm := fsm1 }, t)

/-- State of one pooled logical worker in WorkerPool.ts; entries marked
terminated are deleted from the map at the same moment, so live entries are
idle or busy. -/
inductive PWState
  | idle
  | busy
  deriving DecidableEq, Repr

/-- WorkerPool from WorkerPool.ts: worker map (insertion order), FIFO
pending queue (work ids), disposed flag. -/
structure WorkerPool where
  maxWorkers : Nat
  workers : List PWState
  queue : List Nat
  disposed : Bool
  deriving DecidableEq, Repr

/-- WorkerPool constructor: initializes defaultWorkers idle workers with no
clamping against maxWorkers. -/
def WorkerPool.new (defaultWorkers maxWorkers : Nat) : WorkerPool :=
  ⟨maxWorkers, List.replicate defaultWorkers .idle, [], false⟩

/-- Replace the first worker in the given state, mirroring the first-match
scan of _findIdleWorker and the finally-block state flips. -/
def setFirst : List PWState → PWState → PWState → List PWState
  | [], _, _ => []
  | w :: rest, src, dst =>
    if w == src then dst :: rest else w :: setFirst rest src dst

/-- WorkerPool.execute up to its first suspension point: reject if
disposed, dispatch to the first idle worker if any, else enqueue FIFO. -/
def WorkerPool.executeOp (p : WorkerPool) (workId : Nat) : WorkerPool :=
  if p.disposed then p
  else if p.workers.contains .idle then
    { p with workers := setFirst p.workers .idle .busy }
  else { p with queue := p.queue ++ [workId] }

/-- The finally-block of _dispatchWork: unless disposed, the finishing
worker returns to idle and _processQueue drains one queued item into an
idle worker. -/
def WorkerPool.completeOp (p : WorkerPool) : WorkerPool :=
  if p.disposed then p
  else
    match p.queue with
    | [] => { p with workers := setFirst p.workers .busy .idle }
    | _ :: rest =>
      if (setFirst p.workers .busy .idle).contains .idle then
        { p with
          workers := setFirst (setFirst p.workers .busy .idle) .idle .busy
          queue := rest }
      else { p with workers := setFirst p.workers .busy .idle }

/-- Remove up to n idle workers, scanning in map order (_shrinkPool). -/
def removeIdle : List PWState → Nat → List PWState
  | ws, 0 => ws
  | [], _ + 1 => []
  | w :: rest, n + 1 =>
    if w == .idle then removeIdle rest n else w :: removeIdle rest (n + 1)

/-- WorkerPool.scale: clamp the target by maxWorkers, add idle workers to
grow, remove idle workers to shrink (busy workers are never removed). -/
def WorkerPool.scale (p : WorkerPool) (count : Int) : WorkerPool :=
  if p.disposed then p
  else
    if min count (p.maxWorkers : Int) > (p.workers.length : Int) then
      { p with
        workers := p.workers ++ List.replicate
          (min count (p.maxWorkers : Int) - (p.workers.length : Int)).toNat .idle }
    else if min count (p.maxWorkers : Int) < (p.workers.length : Int) then
      { p with
        workers := removeIdle p.workers
          ((p.workers.length : Int) - min count (p.maxWorkers : Int)).toNat }
    else p

/-- WorkerPool.dispose: reject the queue, terminate and clear all workers;
idempotent. -/
def WorkerPool.dispose (p : WorkerPool) : WorkerPool :=
  if p.disposed then p
  else { p with disposed := true, queue := [], workers := [] }

/-- Observable operations on a WorkerPool. -/
inductive PoolOp
  | execute (workId : Nat)
  | complete
  | scale (count : Int)
  | dispose
  deriving Repr

/-- Apply one pool operation. -/
def WorkerPool.applyOp (p : WorkerPool) : PoolOp → WorkerPool
  | .execute wid => p.executeOp wid
  | .complete => p.completeOp
  | .scale c => p.scale c
  | .dispose => p.dispose

/-- Apply a sequence of pool operations. -/
def WorkerPool.applyOps (p : WorkerPool) (ops : List PoolOp) : WorkerPool :=
  ops.foldl WorkerPool.applyOp p

/-- Behaviour of an Authority broadcast listener when invoked: return
normally, throw, or subscribe a new (plain) listener to the same channel. -/
inductive LAction
  | pure
  | throwErr
  | subscribeNew (nid : Nat)
  deriving DecidableEq, Repr

/-- A broadcast listener: identity plus behaviour. -/
structure Listener where
  lid : Nat
  act : LAction
  deriving DecidableEq, Repr

/-- The for-of loop of Authority.broadcast over the live listener Set.
JavaScript Set iteration visits members in insertion order and also visits
members added during iteration; Set.add is a no-op for a present member.
`seen` holds the ids already visited, `appended` the ids subscribed during
this delivery (plain listeners appended at the end of the Set). Returns
the ids invoked with the data, in order, and whether a listener exception
escaped to the broadcaster (the source has no try/catch, so the loop stops
at the first throw). -/
def broadcastGo : List Nat → List Listener → List Nat → List Nat × Bool
  | _, [], appended => (appended, false)
  | seen, l :: rest, appended =>
    match l.act with
    | .pure =>
      let r := broadcastGo (seen ++ [l.lid]) rest appended
      (l.lid :: r.1, r.2)
    | .throwErr => ([l.lid], true)
    | .subscribeNew nid =>
      let present :=
        seen.any (fun x => x == nid) || (l :: rest).any (fun x => x.lid == nid) ||
          appended.any (fun x => x == nid)
      let appended1 := if present then appended else appended ++ [nid]
      let r := broadcastGo (seen ++ [l.lid]) rest appended1
      (l.lid :: r.1, r.2)

/-- Authority.broadcast: look up the channel in the listener table and run
the delivery loop over the live Set. -/
def Authority.broadcast (table : List (String × List Listener))
    (channel : String) : List Nat × Bool :=
  match table.find? (fun p => p.1 == channel) with
  | none => ([], false)
  | some p => broadcastGo [] p.2 []

/-- Rank of a task status along the lifecycle order:
pending before running before the terminal statuses. -/
def statusRank : TaskStatus → Nat
  | .pending => 0
  | .running => 1
  | .success => 2
  | .error => 2
  | .aborted => 2

/-- One observable status change is legal when it moves forward along the
lifecycle order and never leaves a terminal status. -/
def stepOK (a b : TaskStatus) : Prop :=
  statusRank a ≤ statusRank b ∧ (statusRank a = 2 → b = a)

instance : DecidableRel stepOK :=
  fun a b =>
    inferInstanceAs (Decidable (statusRank a ≤ statusRank b ∧ (statusRank a = 2 → b = a)))

/-- State invariant of a Task object: the error slot is only populated in
status error, the result slot only in status success, and outcome aborted
only with status aborted. -/
def TaskInv (t : Task) : Prop :=
  (t.error.isSome → t.status = .error) ∧
  (t.result.isSome → t.status = .success) ∧
  (t.outcome = some .aborted → t.status = .aborted)

/-- A user function that performs no context operation and resolves. -/
def fn0 : RunFn := ⟨[], .ret 0⟩

/-- Concrete scenario for scope disposal: a mounted scope in which one
task was created, ran to success, and is still registered. -/
def c1Scope : Scope :=
  match (Scope.mount (Scope.new "s" "S")).createTask none "r" with
  | .ok (s2, t) =>
    let t1 := (t.run ⟨[], .ret 42⟩ false).task
    { s2 with tasks := TaskTable.register s2.tasks t1 }
  | .error _ => Scope.new "s" "S"

/-- Concrete scenario for the amended disposal claim: a mounted scope
holding one still-pending task. -/
def cwScope : Scope :=
  match (Scope.mount (Scope.new "s" "S")).createTask none "r" with
  | .ok (s2, _) => s2
  | .error _ => Scope.new "s" "S"

/-- The pending task registered in cwScope. -/
def cwTask : Task := Task.new 0 "s" "r"

/-- A task already settled as aborted (terminal), for stability checks. -/
def cwDoneTask : Task := (Task.new 0 "s" "r").abort

/-- Broadcast scenario: the first subscribed listener throws, a second
listener is subscribed after it. -/
def c3Listeners : List Listener := [⟨1, .throwErr⟩, ⟨2, .pure⟩]

/-- Listener table with channel ch for the throwing-listener scenario. -/
def c3Table : List (String × List Listener) := [("ch", c3Listeners)]

/-- Broadcast scenario: the only subscribed listener subscribes listener 2
to the same channel during delivery. -/
def c4Listeners : List Listener := [⟨1, .subscribeNew 2⟩]

/-- Listener table with channel ch for the subscribe-during-delivery
scenario. -/
def c4Table : List (String × List Listener) := [("ch", c4Listeners)]

/-- User function that spawns a worker whose function throws a user error,
then resolves with 1. -/
def c8Fn : RunFn := ⟨[CtxOp.spawnWorker (.throwE (.user 7)) false], .ret 1⟩

/-- Fresh task for the worker-failure scenario. -/
def c8Task : Task := Task.new 0 "s" "r"

/-- Outcome of running the worker-spawning function on the fresh task. -/
def c8Run : RunRes := c8Task.run c8Fn false

/-- First createTask call with explicit ref r on a mounted scope. -/
def c9Step1 : Scope × Task :=
  match (Scope.mount (Scope.new "s" "S")).createTask (some "r") "g1" with
  | .ok p => p
  | .error _ => (Scope.new "s" "S", Task.new 99 "s" "x")

/-- Second createTask call with the same explicit ref r. -/
def c9Step2 : Scope × Task :=
  match c9Step1.1.createTask (some "r") "g2" with
  | .ok p => p
  | .error _ => (Scope.new "s" "S", Task.new 99 "s" "x")


theorem spawnWorkerOp_fields (t : Task) (fb : FnOutcome) (td : Bool) :
    (Task.spawnWorkerOp t fb td).1.status = t.status ∧
    (Task.spawnWorkerOp t fb td).1.signalAborted = t.signalAborted ∧
    (Task.spawnWorkerOp t fb td).1.error = t.error ∧
    (Task.spawnWorkerOp t fb td).1.result = t.result ∧
    (Task.spawnWorkerOp t fb td).1.outcome = t.outcome := by
  unfold Task.spawnWorkerOp
  split <;> exact ⟨rfl, rfl, rfl, rfl, rfl⟩

theorem applyCtxOps_fields (ops : List CtxOp) (t : Task) :
    (Task.applyCtxOps t ops).1.status = t.status ∧
    (Task.applyCtxOps t ops).1.signalAborted = t.signalAborted ∧
    (Task.applyCtxOps t ops).1.error = t.error ∧
    (Task.applyCtxOps t ops).1.result = t.result ∧
    (Task.applyCtxOps t ops).1.outcome = t.outcome := by
  induction ops generalizing t with
  | nil => exact ⟨rfl, rfl, rfl, rfl, rfl⟩
  | cons op rest ih =>
    cases op with
    | spawnWorker fb td =>
      have h := spawnWorkerOp_fields t fb td
      unfold Task.applyCtxOps
      rcases hs : Task.spawnWorkerOp t fb td with ⟨t1, oe⟩
      rw [hs] at h
      cases oe with
      | none =>
        simp only
        have h2 := ih t1
        exact ⟨h2.1.trans h.1, h2.2.1.trans h.2.1, h2.2.2.1.trans h.2.2.1,
          h2.2.2.2.1.trans h.2.2.2.1, h2.2.2.2.2.trans h.2.2.2.2⟩
      | some e => exact h


theorem abort_not_active (t : Task) : (t.abort).isActive = false := by
  unfold Task.abort
  split
  · next h => simpa using h
  · rfl

theorem abort_of_active (t : Task) (h : t.isActive = true) :
    t.abort = { t with
      signalAborted := true
      workers := t.workers.map Worker.terminate
      handlers := t.handlers.map Handler.cancel
      streams := t.streams.map Stream.abort
      status := .aborted
      outcome := some .aborted } := by
  unfold Task.abort
  simp [h]

theorem abort_error (t : Task) : (t.abort).error = t.error := by
  unfold Task.abort; split <;> rfl

theorem abort_result (t : Task) : (t.abort).result = t.result := by
  unfold Task.abort; split <;> rfl

theorem run_not_pending (t : Task) (fn : RunFn) (ad : Bool)
    (hnp : t.status ≠ .pending) :
    t.run fn ad =
      ⟨t, .error (.internal "Cannot run task: status is not pending"), false, []⟩ := by
  unfold Task.run
  rw [if_pos (by simpa using hnp)]

theorem run_pending_sig (t : Task) (fn : RunFn) (ad : Bool)
    (hp : t.status = .pending) (hs : t.signalAborted = true) :
    t.run fn ad =
      ⟨{ t with status := .aborted, outcome := some .aborted },
        .error (t.error.getD taskAbortedErr), false,
        [.running, .aborted, .aborted]⟩ := by
  have hne : (t.status != TaskStatus.pending) = false := by rw [hp]; rfl
  unfold Task.run
  rw [hne]
  simp only [Bool.false_eq_true, if_false]
  rw [if_pos (show ({ t with status := TaskStatus.running } : Task).signalAborted = true from hs)]

theorem run_spec (t : Task) (fn : RunFn) (ad : Bool)
    (hp : t.status = .pending) (hs : t.signalAborted = false) :
    t.run fn ad =
      (let t2 := (Task.fnSettle { t with status := TaskStatus.running } fn).1
       match ad, (Task.fnSettle { t with status := TaskStatus.running } fn).2 with
       | true, .ok _ =>
         ⟨{ t2.abort with status := .aborted, outcome := some .aborted },
           .error (t.error.getD taskAbortedErr), true,
           [.running, .aborted, .aborted, .aborted]⟩
       | true, .error _ =>
         ⟨{ t2.abort with status := .aborted, outcome := some .aborted },
           .error (t.error.getD taskAbortedErr), true,
           [.running, .aborted, .aborted]⟩
       | false, .ok v =>
         ⟨{ t2 with result := some v, status := .success, outcome := some .success },
           .ok v, true, [.running, .success]⟩
       | false, .error e =>
         ⟨{ t2 with status := .error, outcome := some .error, error := some e },
           .error e, true, [.running, .error]⟩) := by
  have hne : (t.status != TaskStatus.pending) = false := by rw [hp]; rfl
  have hfld := applyCtxOps_fields fn.ops { t with status := TaskStatus.running }
  have h2status : (Task.fnSettle { t with status := TaskStatus.running } fn).1.status
      = TaskStatus.running := hfld.1
  have h2sig : (Task.fnSettle { t with status := TaskStatus.running } fn).1.signalAborted
      = false := by
    have := hfld.2.1
    exact this.trans hs
  have h2err : (Task.fnSettle { t with status := TaskStatus.running } fn).1.error
      = t.error := hfld.2.2.1
  have h2act : (Task.fnSettle { t with status := TaskStatus.running } fn).1.isActive
      = true := by unfold Task.isActive; rw [h2status]; rfl
  have habs : ((Task.fnSettle { t with status := TaskStatus.running } fn).1.abort).signalAborted
      = true := by rw [abort_of_active _ h2act]
  unfold Task.run
  rw [hne]
  simp only [Bool.false_eq_true, if_false]
  rw [if_neg (show ¬ (({ t with status := TaskStatus.running } : Task).signalAborted = true) by
    simp only [hs]; simp)]
  cases hfs : (Task.fnSettle { t with status := TaskStatus.running } fn).2 with
  | ok v =>
    cases ad with
    | true =>
      simp only [eq_self_iff_true, if_true]
      rw [if_pos habs]
      simp only [abort_error, h2err]
      rfl
    | false =>
      simp only [Bool.false_eq_true, if_false]
      rw [if_neg (by simp only [h2sig]; simp)]
      rfl
  | error e =>
    cases ad with
    | true =>
      simp only [eq_self_iff_true, if_true]
      rw [if_pos habs]
      simp only [abort_error, h2err]
      rfl
    | false =>
      simp only [Bool.false_eq_true, if_false]
      rw [if_neg (by simp only [h2sig]; simp)]
      rfl


theorem abort_of_inactive (t : Task) (h : t.isActive = false) : t.abort = t := by
  unfold Task.abort
  rw [h]
  rfl

/-- C5: Task.run on a fresh task classifies its settlement exactly: if an
abort arrived while the function was in flight the task finalizes aborted
(even if the function threw or returned); otherwise a thrown error
finalizes the task as error with the error captured, and a normal return
finalizes it as success with the result stored. The status, outcome, error
and result fields take exactly one terminal shape in each case, so the
three outcomes are mutually exclusive. -/
theorem task_run_outcome_classification (t : Task) (fn : RunFn) (ad : Bool)
    (hp : t.status = .pending) (hs : t.signalAborted = false) :
    (ad = true →
      (t.run fn ad).task.status = .aborted ∧
      (t.run fn ad).task.outcome = some .aborted) ∧
    (ad = false → ∀ e,
      (Task.fnSettle { t with status := TaskStatus.running } fn).2 = .error e →
      (t.run fn ad).task.status = .error ∧
      (t.run fn ad).task.outcome = some .error ∧
      (t.run fn ad).task.error = some e ∧
      (t.run fn ad).res = .error e) ∧
    (ad = false → ∀ v,
      (Task.fnSettle { t with status := TaskStatus.running } fn).2 = .ok v →
      (t.run fn ad).task.status = .success ∧
      (t.run fn ad).task.outcome = some .success ∧
      (t.run fn ad).task.result = some v ∧
      (t.run fn ad).res = .ok v) := by
  refine ⟨?_, ?_, ?_⟩
  · intro had
    subst had
    rw [run_spec t fn true hp hs]
    cases hfs : (Task.fnSettle { t with status := TaskStatus.running } fn).2 with
    | ok v => exact ⟨rfl, rfl⟩
    | error e => exact ⟨rfl, rfl⟩
  · intro had e hfe
    subst had
    rw [run_spec t fn false hp hs, hfe]
    exact ⟨rfl, rfl, rfl, rfl⟩
  · intro had v hfv
    subst had
    rw [run_spec t fn false hp hs, hfv]
    exact ⟨rfl, rfl, rfl, rfl⟩

theorem task_run_outcome_classification_witness :
    ((Task.new 0 "s" "r").run ⟨[], .throwE (.user 3)⟩ false).task.status = .error ∧
    ((Task.new 0 "s" "r").run ⟨[], .throwE (.user 3)⟩ false).task.outcome = some .error ∧
    ((Task.new 0 "s" "r").run ⟨[], .throwE (.user 3)⟩ false).task.error = some (.user 3) ∧
    ((Task.new 0 "s" "r").run ⟨[], .throwE (.user 3)⟩ false).res = .error (.user 3) :=
  (task_run_outcome_classification (Task.new 0 "s" "r") ⟨[], .throwE (.user 3)⟩ false
    rfl rfl).2.1 rfl (.user 3) rfl


/-- C6: every status assignment performed by run() or abort() moves
forward along pending, running, terminal and never leaves a terminal
status; this makes the three terminal statuses visited at most once.
Moreover abort() is a no-op on a settled task, run() on a settled task
leaves it unchanged, and a second run() (status no longer pending) rejects
without invoking the user function. effect() never assigns status at all
(see Task.ts effect, which only reads isActive). -/
theorem task_status_transitions (t : Task) (fn : RunFn) (ad : Bool) :
    List.Chain' stepOK (t.status :: (t.run fn ad).trace) ∧
    List.Chain' stepOK (t.status :: t.abortAssigns) ∧
    (statusRank t.status = 2 → (t.run fn ad).task = t ∧ t.abort = t) ∧
    (t.status ≠ .pending →
      (t.run fn ad).fnInvoked = false ∧
      (t.run fn ad).res = .error (.internal "Cannot run task: status is not pending") ∧
      (t.run fn ad).task = t) := by
  cases ht : t.status with
  | pending =>
    refine ⟨?_, ?_, ?_, ?_⟩
    · cases hsg : t.signalAborted with
      | true =>
        rw [run_pending_sig t fn ad ht hsg]
        show List.Chain' stepOK
          [.pending, .running, .aborted, .aborted]
        simp [List.chain'_cons, stepOK, statusRank]
      | false =>
        rw [run_spec t fn ad ht hsg]
        cases hfs : (Task.fnSettle { t with status := TaskStatus.running } fn).2 with
        | ok v =>
          cases ad with
          | false =>
            show List.Chain' stepOK [.pending, .running, .success]
            simp [List.chain'_cons, stepOK, statusRank]
          | true =>
            show List.Chain' stepOK
              [.pending, .running, .aborted, .aborted, .aborted]
            simp [List.chain'_cons, stepOK, statusRank]
        | error e =>
          cases ad with
          | false =>
            show List.Chain' stepOK [.pending, .running, .error]
            simp [List.chain'_cons, stepOK, statusRank]
          | true =>
            show List.Chain' stepOK
              [.pending, .running, .aborted, .aborted]
            simp [List.chain'_cons, stepOK, statusRank]
    · have hact : t.isActive = true := by unfold Task.isActive; rw [ht]; rfl
      unfold Task.abortAssigns
      rw [hact]
      simp [List.chain'_cons, stepOK, statusRank]
    · intro h
      exact absurd h (by decide)
    · intro h
      exact absurd rfl h
  | running =>
    have hnp : t.status ≠ .pending := by rw [ht]; decide
    have hact : t.isActive = true := by unfold Task.isActive; rw [ht]; rfl
    rw [run_not_pending t fn ad hnp]
    refine ⟨?_, ?_, ?_, ?_⟩
    · show List.Chain' stepOK [.running]
      simp
    · unfold Task.abortAssigns
      rw [hact]
      simp [List.chain'_cons, stepOK, statusRank]
    · intro h
      exact absurd h (by decide)
    · intro _
      exact ⟨rfl, rfl, rfl⟩
  | success =>
    have hnp : t.status ≠ .pending := by rw [ht]; decide
    have hact : t.isActive = false := by unfold Task.isActive; rw [ht]; rfl
    rw [run_not_pending t fn ad hnp]
    refine ⟨?_, ?_, ?_, ?_⟩
    · show List.Chain' stepOK [.success]
      simp
    · unfold Task.abortAssigns
      rw [hact]
      simp [List.chain'_cons, stepOK, statusRank]
    · intro _
      exact ⟨rfl, abort_of_inactive t hact⟩
    · intro _
      exact ⟨rfl, rfl, rfl⟩
  | error =>
    have hnp : t.status ≠ .pending := by rw [ht]; decide
    have hact : t.isActive = false := by unfold Task.isActive; rw [ht]; rfl
    rw [run_not_pending t fn ad hnp]
    refine ⟨?_, ?_, ?_, ?_⟩
    · show List.Chain' stepOK [.error]
      simp
    · unfold Task.abortAssigns
      rw [hact]
      simp [List.chain'_cons, stepOK, statusRank]
    · intro _
      exact ⟨rfl, abort_of_inactive t hact⟩
    · intro _
      exact ⟨rfl, rfl, rfl⟩
  | aborted =>
    have hnp : t.status ≠ .pending := by rw [ht]; decide
    have hact : t.isActive = false := by unfold Task.isActive; rw [ht]; rfl
    rw [run_not_pending t fn ad hnp]
    refine ⟨?_, ?_, ?_, ?_⟩
    · show List.Chain' stepOK [.aborted]
      simp
    · unfold Task.abortAssigns
      rw [hact]
      simp [List.chain'_cons, stepOK, statusRank]
    · intro _
      exact ⟨rfl, abort_of_inactive t hact⟩
    · intro _
      exact ⟨rfl, rfl, rfl⟩

theorem task_status_transitions_witness :
    (cwDoneTask.run fn0 false).task = cwDoneTask ∧
    cwDoneTask.abort = cwDoneTask ∧
    (cwDoneTask.run fn0 false).fnInvoked = false :=
  have h := task_status_transitions cwDoneTask fn0 false
  ⟨(h.2.2.1 (by decide)).1, (h.2.2.1 (by decide)).2, (h.2.2.2 (by decide)).1⟩


theorem taskInv_new (serial : Nat) (sid ref : String) :
    TaskInv (Task.new serial sid ref) := by
  refine ⟨?_, ?_, ?_⟩ <;> intro hx <;> exact nomatch hx

theorem inv_err_none (t : Task) (h : TaskInv t) (hne : t.status ≠ .error) :
    t.error = none := by
  cases he : t.error with
  | none => rfl
  | some e => exact absurd (h.1 (by rw [he]; rfl)) hne

theorem inv_res_none (t : Task) (h : TaskInv t) (hne : t.status ≠ .success) :
    t.result = none := by
  cases hr : t.result with
  | none => rfl
  | some v => exact absurd (h.2.1 (by rw [hr]; rfl)) hne

theorem taskInv_abort (t : Task) (h : TaskInv t) : TaskInv t.abort := by
  cases hact : t.isActive with
  | false => rw [abort_of_inactive t hact]; exact h
  | true =>
    have hne : t.status ≠ .error := by
      intro hx
      unfold Task.isActive at hact
      rw [hx] at hact
      exact absurd hact (by decide)
    have hns : t.status ≠ .success := by
      intro hx
      unfold Task.isActive at hact
      rw [hx] at hact
      exact absurd hact (by decide)
    have herr := inv_err_none t h hne
    have hres := inv_res_none t h hns
    rw [abort_of_active t hact]
    exact ⟨fun hx => absurd hx (by simp [herr]),
      fun hx => absurd hx (by simp [hres]), fun _ => rfl⟩

theorem taskInv_run (t : Task) (fn : RunFn) (ad : Bool) (h : TaskInv t) :
    TaskInv (t.run fn ad).task := by
  by_cases hp : t.status = .pending
  · have herr := inv_err_none t h (by rw [hp]; decide)
    have hres := inv_res_none t h (by rw [hp]; decide)
    have hfld := applyCtxOps_fields fn.ops { t with status := TaskStatus.running }
    have h2err : (Task.fnSettle { t with status := TaskStatus.running } fn).1.error
        = t.error := hfld.2.2.1
    have h2res : (Task.fnSettle { t with status := TaskStatus.running } fn).1.result
        = t.result := hfld.2.2.2.1
    cases hsg : t.signalAborted with
    | true =>
      rw [run_pending_sig t fn ad hp hsg]
      exact ⟨fun hx => absurd hx (by simp [herr]),
        fun hx => absurd hx (by simp [hres]), fun _ => rfl⟩
    | false =>
      rw [run_spec t fn ad hp hsg]
      cases hfs : (Task.fnSettle { t with status := TaskStatus.running } fn).2 with
      | ok v =>
        cases ad with
        | true =>
          refine ⟨fun hx => absurd hx ?_, fun hx => absurd hx ?_, fun _ => rfl⟩
          · show ¬ ((Task.fnSettle { t with status := TaskStatus.running } fn).1.abort.error).isSome = true
            rw [abort_error, h2err, herr]
            simp
          · show ¬ ((Task.fnSettle { t with status := TaskStatus.running } fn).1.abort.result).isSome = true
            rw [abort_result, h2res, hres]
            simp
        | false =>
          refine ⟨fun hx => absurd hx ?_, fun _ => rfl, fun hx => nomatch hx⟩
          show ¬ ((Task.fnSettle { t with status := TaskStatus.running } fn).1.error).isSome = true
          rw [h2err, herr]
          simp
      | error e =>
        cases ad with
        | true =>
          refine ⟨fun hx => absurd hx ?_, fun hx => absurd hx ?_, fun _ => rfl⟩
          · show ¬ ((Task.fnSettle { t with status := TaskStatus.running } fn).1.abort.error).isSome = true
            rw [abort_error, h2err, herr]
            simp
          · show ¬ ((Task.fnSettle { t with status := TaskStatus.running } fn).1.abort.result).isSome = true
            rw [abort_result, h2res, hres]
            simp
        | false =>
          refine ⟨fun _ => rfl, fun hx => absurd hx ?_, fun hx => nomatch hx⟩
          show ¬ ((Task.fnSettle { t with status := TaskStatus.running } fn).1.result).isSome = true
          rw [h2res, hres]
          simp
  · rw [run_not_pending t fn ad hp]
    exact h

theorem taskInv_ops (t : Task) (h : TaskInv t) (ops : List TaskOp) :
    TaskInv (Task.applyOps t ops) := by
  induction ops generalizing t with
  | nil => exact h
  | cons op rest ih =>
    have h1 : TaskInv (Task.applyOp t op) := by
      cases op with
      | runTask fn ad => exact taskInv_run t fn ad h
      | abortTask => exact taskInv_abort t h
    exact ih _ h1


/-- C10: on any reachable Task, outcome aborted implies the error getter
and the result getter return null, and a run() call that finalizes the
task as aborted rejects with the freshly constructed generic error with
message `Task was aborted`, never with a user-thrown error value. -/
theorem task_aborted_null_fields (serial : Nat) (sid ref : String)
    (ops : List TaskOp) (fn : RunFn) (ad : Bool) :
    ((Task.applyOps (Task.new serial sid ref) ops).outcome = some .aborted →
      (Task.applyOps (Task.new serial sid ref) ops).error = none ∧
      (Task.applyOps (Task.new serial sid ref) ops).result = none) ∧
    ((Task.applyOps (Task.new serial sid ref) ops).status = .pending →
      ((Task.applyOps (Task.new serial sid ref) ops).run fn ad).task.outcome
        = some TaskOutcome.aborted →
      ((Task.applyOps (Task.new serial sid ref) ops).run fn ad).res
        = .error taskAbortedErr) := by
  have hInv := taskInv_ops _ (taskInv_new serial sid ref) ops
  set t := Task.applyOps (Task.new serial sid ref) ops with hT
  constructor
  · intro ho
    have hst : t.status = .aborted := hInv.2.2 ho
    exact ⟨inv_err_none t hInv (by rw [hst]; decide),
      inv_res_none t hInv (by rw [hst]; decide)⟩
  · intro hp hao
    have herr := inv_err_none t hInv (by rw [hp]; decide)
    cases hsg : t.signalAborted with
    | true =>
      rw [run_pending_sig t fn ad hp hsg]
      rw [herr]
      rfl
    | false =>
      cases hfs : (Task.fnSettle { t with status := TaskStatus.running } fn).2 with
      | ok v =>
        rw [run_spec t fn ad hp hsg, hfs] at hao ⊢
        cases ad with
        | true =>
          rw [herr]
          rfl
        | false => simp at hao
      | error e =>
        rw [run_spec t fn ad hp hsg, hfs] at hao ⊢
        cases ad with
        | true =>
          rw [herr]
          rfl
        | false => simp at hao

theorem task_aborted_null_fields_witness :
    ((Task.applyOps (Task.new 0 "s" "r") [TaskOp.abortTask]).error = none ∧
     (Task.applyOps (Task.new 0 "s" "r") [TaskOp.abortTask]).result = none) ∧
    ((Task.new 0 "s" "r").run fn0 true).res = .error taskAbortedErr := by
  constructor
  · exact (task_aborted_null_fields 0 "s" "r" [TaskOp.abortTask] fn0 false).1 (by decide)
  · exact (task_aborted_null_fields 0 "s" "r" [] fn0 true).2 (by decide) (by decide)


/-- C1 counterexample: a scope whose registered task already settled as
success. After dispose() the task satisfies isActive = false but its
signal is NOT aborted (Task.abort is a no-op on settled tasks), refuting
the claim that every previously registered task ends with
signal.aborted = true. -/
theorem scope_dispose_settled_counterexample :
    ((c1Scope.dispose).tasks.map (fun t => (t.isActive, t.signalAborted)))
      = [(false, false)] := by decide

theorem dispose_not_alive (s : Scope) (h : ScopeFSM.isAlive s.fsm = false) :
    s.dispose = s := by
  unfold Scope.dispose
  rw [if_pos (by rw [h]; rfl)]

theorem dispose_alive (s : Scope) (h : ScopeFSM.isAlive s.fsm = true) :
    s.dispose = { s with
      tasks := TaskTable.abortAll s.tasks s.id
      fsm := ScopeFSM.transition (ScopeFSM.transition s.fsm .dispose) .dispose } := by
  unfold Scope.dispose
  rw [if_neg (by rw [h]; decide)]

/-- C1 amended: after dispose() of an alive scope, every task of the scope
registered at that moment is inactive, and every such task that was still
active at disposal time has been aborted with its signal raised; a task
that had already settled keeps its settled status and its signal is left
untouched. -/
theorem scope_dispose_aborts_registered (s : Scope)
    (halive : ScopeFSM.isAlive s.fsm = true) :
    ∀ u ∈ s.tasks, u.scopeId = s.id →
      u.abort ∈ (s.dispose).tasks ∧
      (u.abort).isActive = false ∧
      (u.isActive = true → (u.abort).signalAborted = true ∧
        (u.abort).status = .aborted) := by
  intro u hu hsc
  have hd := dispose_alive s halive
  refine ⟨?_, abort_not_active u, ?_⟩
  · rw [hd]
    show u.abort ∈ TaskTable.abortAll s.tasks s.id
    unfold TaskTable.abortAll
    have heq : u.abort = (fun w => if w.scopeId == s.id then w.abort else w) u := by
      simp [hsc]
    rw [heq]
    exact List.mem_map_of_mem _ hu
  · intro hact
    rw [abort_of_active u hact]
    exact ⟨rfl, rfl⟩

theorem scope_dispose_aborts_registered_witness :
    cwTask.abort ∈ (cwScope.dispose).tasks ∧
    (cwTask.abort).isActive = false ∧
    (cwTask.abort).signalAborted = true ∧
    (cwTask.abort).status = .aborted := by
  have h := scope_dispose_aborts_registered cwScope (by decide) cwTask
    (by decide) (by decide)
  exact ⟨h.1, h.2.1, (h.2.2 (by decide)).1, (h.2.2 (by decide)).2⟩

/-- C2 counterexample: a scope still in INIT is alive, yet dispose() does
not move its FSM to DISPOSED: the FSM has no dispose transition out of
INIT, so the state remains INIT. -/
theorem scope_dispose_init_counterexample :
    ScopeFSM.isAlive (Scope.new "x" "X").fsm = true ∧
    ((Scope.new "x" "X").dispose).fsm = FSMState.INIT ∧
    ((Scope.new "x" "X").dispose).fsm ≠ FSMState.DISPOSED := by decide

/-- C2 amended: for a scope in ATTACHED, RUNNING or SUSPENDED, dispose()
drives the FSM through DISPOSING to DISPOSED (two dispose transitions) and
a second dispose() is a no-op leaving the scope unchanged; for a scope
still in INIT, dispose() leaves the FSM state INIT. -/
theorem scope_dispose_from_mounted (s : Scope) :
    ((s.fsm = .ATTACHED ∨ s.fsm = .RUNNING ∨ s.fsm = .SUSPENDED) →
      (s.dispose).fsm = .DISPOSED ∧ (s.dispose).dispose = s.dispose) ∧
    (s.fsm = .INIT → (s.dispose).fsm = .INIT) := by
  constructor
  · intro h
    have halive : ScopeFSM.isAlive s.fsm = true := by
      rcases h with h | h | h <;> rw [h] <;> rfl
    have hd := dispose_alive s halive
    have hfsm : ScopeFSM.transition (ScopeFSM.transition s.fsm .dispose) .dispose
        = .DISPOSED := by
      rcases h with h | h | h <;> rw [h] <;> rfl
    constructor
    · rw [hd]
      exact hfsm
    · apply dispose_not_alive
      rw [hd]
      show ScopeFSM.isAlive
        (ScopeFSM.transition (ScopeFSM.transition s.fsm .dispose) .dispose) = false
      rw [hfsm]
      rfl
  · intro h
    have halive : ScopeFSM.isAlive s.fsm = true := by rw [h]; rfl
    rw [dispose_alive s halive]
    show ScopeFSM.transition (ScopeFSM.transition s.fsm .dispose) .dispose = .INIT
    rw [h]
    rfl

theorem scope_dispose_from_mounted_witness :
    (((Scope.new "x" "X").mount).dispose).fsm = .DISPOSED ∧
    (((Scope.new "x" "X").mount).dispose).dispose
      = ((Scope.new "x" "X").mount).dispose :=
  (scope_dispose_from_mounted ((Scope.new "x" "X").mount)).1 (Or.inl (by decide))


/-- C3 counterexample: with listener 1 (throws) subscribed before listener
2 on channel ch, broadcast invokes only listener 1 and the exception
escapes to the broadcaster; listener 2, subscribed after the throwing one,
is never invoked with the data. -/
theorem broadcast_throw_counterexample :
    Authority.broadcast c3Table "ch" = ([1], true) ∧
    2 ∉ (Authority.broadcast c3Table "ch").1 := by decide

theorem any_beq_eq_false {l : List Nat} {n : Nat} (h : ∀ x ∈ l, x ≠ n) :
    (l.any (fun x => x == n)) = false :=
  List.any_eq_false.mpr fun x hx => by simpa using h x hx

theorem any_lid_eq_false {l : List Listener} {n : Nat} (h : ∀ x ∈ l, x.lid ≠ n) :
    (l.any (fun x => x.lid == n)) = false :=
  List.any_eq_false.mpr fun x hx => by simpa using h x hx

theorem broadcastGo_pure_all (post : List Listener) :
    ∀ (seen appended : List Nat), (∀ l ∈ post, l.act = .pure) →
    broadcastGo seen post appended = (post.map Listener.lid ++ appended, false) := by
  induction post with
  | nil => intro seen appended _; rfl
  | cons l rest ih =>
    intro seen appended h
    have hl : l.act = .pure := h l (List.mem_cons_self l rest)
    unfold broadcastGo
    rw [hl]
    rw [ih (seen ++ [l.lid]) appended (fun x hx => h x (List.mem_cons_of_mem l hx))]
    simp

theorem broadcastGo_throw (post : List Listener) (tid : Nat) :
    ∀ (pre : List Listener) (seen appended : List Nat),
    (∀ l ∈ pre, l.act = .pure) →
    broadcastGo seen (pre ++ ⟨tid, .throwErr⟩ :: post) appended
      = (pre.map Listener.lid ++ [tid], true) := by
  intro pre
  induction pre with
  | nil => intro seen appended _; rfl
  | cons l rest ih =>
    intro seen appended h
    have hl : l.act = .pure := h l (List.mem_cons_self l rest)
    show broadcastGo seen (l :: (rest ++ ⟨tid, .throwErr⟩ :: post)) appended = _
    unfold broadcastGo
    rw [hl]
    rw [ih (seen ++ [l.lid]) appended (fun x hx => h x (List.mem_cons_of_mem l hx))]
    simp

/-- C3 amended: Authority.broadcast has no try/catch, so a listener
exception propagates to the broadcaster and stops delivery: the listeners
before the throwing one (in subscription order) are invoked, the thrower
is invoked, and no listener after it receives the data. -/
theorem broadcast_listener_throw_stops (channel : String)
    (pre post : List Listener) (tid : Nat)
    (hpre : ∀ l ∈ pre, l.act = .pure) :
    Authority.broadcast [(channel, pre ++ ⟨tid, .throwErr⟩ :: post)] channel
      = (pre.map Listener.lid ++ [tid], true) := by
  unfold Authority.broadcast
  have hfind : ([(channel, pre ++ ⟨tid, .throwErr⟩ :: post)].find?
      (fun p => p.1 == channel)) = some (channel, pre ++ ⟨tid, .throwErr⟩ :: post) := by
    simp [List.find?]
  rw [hfind]
  exact broadcastGo_throw post tid pre [] [] hpre

theorem broadcast_listener_throw_stops_witness :
    Authority.broadcast [("ch", [⟨5, .pure⟩, ⟨1, .throwErr⟩, ⟨2, .pure⟩])] "ch"
      = ([5, 1], true) := by
  have h := broadcast_listener_throw_stops "ch" [⟨5, .pure⟩] [⟨2, .pure⟩] 1
    (by intro l hl; simp at hl; rw [hl])
  simpa using h


/-- C4 counterexample: channel ch holds exactly one listener (id 1) whose
invocation subscribes listener 2 to the same channel. The broadcast
delivers to 1 and also to 2, although 2 was not subscribed when broadcast
was invoked: the loop iterates the live Set, not a snapshot. -/
theorem broadcast_snapshot_counterexample :
    (Authority.broadcast c4Table "ch").1 = [1, 2] ∧
    c4Listeners.map Listener.lid = [1] ∧
    2 ∉ c4Listeners.map Listener.lid := by decide

theorem broadcastGo_subscribe (post : List Listener) (k nid : Nat)
    (hpost : ∀ l ∈ post, l.act = .pure)
    (hpostne : ∀ l ∈ post, l.lid ≠ nid) (hk : k ≠ nid) :
    ∀ (pre : List Listener) (seen appended : List Nat),
    (∀ l ∈ pre, l.act = .pure) →
    (∀ l ∈ pre, l.lid ≠ nid) →
    (∀ x ∈ seen, x ≠ nid) →
    (∀ x ∈ appended, x ≠ nid) →
    broadcastGo seen (pre ++ ⟨k, .subscribeNew nid⟩ :: post) appended
      = (pre.map Listener.lid ++
          k :: (post.map Listener.lid ++ (appended ++ [nid])), false) := by
  intro pre
  induction pre with
  | nil =>
    intro seen appended _ _ hseen happ
    show broadcastGo seen (⟨k, .subscribeNew nid⟩ :: post) appended = _
    unfold broadcastGo
    have h1 : (seen.any (fun x => x == nid)) = false := any_beq_eq_false hseen
    have h2 : ((⟨k, .subscribeNew nid⟩ :: post).any (fun x => x.lid == nid)) = false := by
      refine any_lid_eq_false ?_
      intro x hx
      rcases List.mem_cons.mp hx with hx | hx
      · rw [hx]; exact hk
      · exact hpostne x hx
    have h3 : (appended.any (fun x => x == nid)) = false := any_beq_eq_false happ
    simp only []
    rw [h1, h2, h3]
    simp only [Bool.or_self, Bool.false_or, Bool.or_false, Bool.false_eq_true, if_false]
    rw [broadcastGo_pure_all post (seen ++ [k]) (appended ++ [nid]) hpost]
    rfl
  | cons l rest ih =>
    intro seen appended hpre hprene hseen happ
    have hl : l.act = .pure := hpre l (List.mem_cons_self l rest)
    show broadcastGo seen (l :: (rest ++ ⟨k, .subscribeNew nid⟩ :: post)) appended = _
    unfold broadcastGo
    rw [hl]
    rw [ih (seen ++ [l.lid]) appended
      (fun x hx => hpre x (List.mem_cons_of_mem l hx))
      (fun x hx => hprene x (List.mem_cons_of_mem l hx))
      (by
        intro x hx
        rcases List.mem_append.mp hx with hx | hx
        · exact hseen x hx
        · rw [List.mem_singleton.mp hx]
          exact hprene l (List.mem_cons_self l rest))
      happ]
    simp

/-- C4 amended: the broadcast loop reads the live listener Set, not a
snapshot: when listener k subscribes a fresh listener nid to the same
channel during delivery and no listener throws, nid is appended to the
Set and invoked with the same broadcast, after the listeners that were
already subscribed. -/
theorem broadcast_live_set_delivers_new (channel : String)
    (pre post : List Listener) (k nid : Nat)
    (hpre : ∀ l ∈ pre, l.act = .pure)
    (hpost : ∀ l ∈ post, l.act = .pure)
    (hprene : ∀ l ∈ pre, l.lid ≠ nid)
    (hpostne : ∀ l ∈ post, l.lid ≠ nid) (hk : k ≠ nid) :
    Authority.broadcast [(channel, pre ++ ⟨k, .subscribeNew nid⟩ :: post)] channel
      = (pre.map Listener.lid ++ k :: (post.map Listener.lid ++ [nid]), false) := by
  unfold Authority.broadcast
  have hfind : ([(channel, pre ++ ⟨k, .subscribeNew nid⟩ :: post)].find?
      (fun p => p.1 == channel))
      = some (channel, pre ++ ⟨k, .subscribeNew nid⟩ :: post) := by
    simp [List.find?]
  rw [hfind]
  have h := broadcastGo_subscribe post k nid hpost hpostne hk pre [] []
    hpre hprene (by intro x hx; exact absurd hx (List.not_mem_nil x))
    (by intro x hx; exact absurd hx (List.not_mem_nil x))
  simpa using h

theorem broadcast_live_set_delivers_new_witness :
    Authority.broadcast [("ch", [⟨7, .pure⟩, ⟨1, .subscribeNew 2⟩])] "ch"
      = ([7, 1, 2], false) := by
  have h := broadcast_live_set_delivers_new "ch" [⟨7, .pure⟩] [] 1 2
    (by intro l hl; simp at hl; rw [hl])
    (by intro l hl; exact absurd hl (List.not_mem_nil l))
    (by intro l hl; simp at hl; rw [hl]; decide)
    (by intro l hl; exact absurd hl (List.not_mem_nil l))
    (by decide)
  simpa using h


/-- C7 counterexample: the WorkerPool constructor initializes
defaultWorkers workers without clamping against maxWorkers, so a pool
configured with defaultWorkers 5 and maxWorkers 2 starts with size 5,
violating size at most maxWorkers at the first observable instant. -/
theorem workerpool_constructor_counterexample :
    ¬ ((WorkerPool.new 5 2).workers.length ≤ (WorkerPool.new 5 2).maxWorkers) := by
  decide

theorem setFirst_length (ws : List PWState) (src dst : PWState) :
    (setFirst ws src dst).length = ws.length := by
  induction ws with
  | nil => rfl
  | cons w rest ih =>
    unfold setFirst
    split
    · rfl
    · simp [ih]

theorem removeIdle_length_le (ws : List PWState) (n : Nat) :
    (removeIdle ws n).length ≤ ws.length := by
  induction ws generalizing n with
  | nil => cases n <;> simp [removeIdle]
  | cons w rest ih =>
    cases n with
    | zero => simp [removeIdle]
    | succ m =>
      unfold removeIdle
      split
      · exact le_trans (ih m) (Nat.le_succ _)
      · simpa using ih (m + 1)

theorem pool_applyOp_inv (p : WorkerPool) (op : PoolOp)
    (h : p.workers.length ≤ p.maxWorkers) :
    (p.applyOp op).workers.length ≤ (p.applyOp op).maxWorkers ∧
    (p.applyOp op).maxWorkers = p.maxWorkers := by
  cases op with
  | execute wid =>
    show (p.executeOp wid).workers.length ≤ (p.executeOp wid).maxWorkers ∧
      (p.executeOp wid).maxWorkers = p.maxWorkers
    unfold WorkerPool.executeOp
    split
    · exact ⟨h, rfl⟩
    · split
      · refine ⟨?_, rfl⟩
        show (setFirst p.workers .idle .busy).length ≤ p.maxWorkers
        rw [setFirst_length]
        exact h
      · exact ⟨h, rfl⟩
  | complete =>
    show (p.completeOp).workers.length ≤ (p.completeOp).maxWorkers ∧
      (p.completeOp).maxWorkers = p.maxWorkers
    unfold WorkerPool.completeOp
    split
    · exact ⟨h, rfl⟩
    · split
      · refine ⟨?_, rfl⟩
        show (setFirst p.workers .busy .idle).length ≤ p.maxWorkers
        rw [setFirst_length]
        exact h
      · split
        · refine ⟨?_, rfl⟩
          show (setFirst (setFirst p.workers .busy .idle) .idle .busy).length
            ≤ p.maxWorkers
          rw [setFirst_length, setFirst_length]
          exact h
        · refine ⟨?_, rfl⟩
          show (setFirst p.workers .busy .idle).length ≤ p.maxWorkers
          rw [setFirst_length]
          exact h
  | scale c =>
    show (p.scale c).workers.length ≤ (p.scale c).maxWorkers ∧
      (p.scale c).maxWorkers = p.maxWorkers
    unfold WorkerPool.scale
    split
    · exact ⟨h, rfl⟩
    · split
      · next hgt =>
        refine ⟨?_, rfl⟩
        show (p.workers ++ List.replicate
          (min c (p.maxWorkers : Int) - (p.workers.length : Int)).toNat
          PWState.idle).length ≤ p.maxWorkers
        rw [List.length_append, List.length_replicate]
        omega
      · split
        · refine ⟨?_, rfl⟩
          show (removeIdle p.workers
            ((p.workers.length : Int) - min c (p.maxWorkers : Int)).toNat).length
            ≤ p.maxWorkers
          exact le_trans (removeIdle_length_le _ _) h
        · exact ⟨h, rfl⟩
  | dispose =>
    show (p.dispose).workers.length ≤ (p.dispose).maxWorkers ∧
      (p.dispose).maxWorkers = p.maxWorkers
    unfold WorkerPool.dispose
    split
    · exact ⟨h, rfl⟩
    · exact ⟨by simp, rfl⟩

theorem pool_applyOps_inv (ops : List PoolOp) :
    ∀ (p : WorkerPool), p.workers.length ≤ p.maxWorkers →
    (WorkerPool.applyOps p ops).workers.length
      ≤ (WorkerPool.applyOps p ops).maxWorkers := by
  induction ops with
  | nil => intro p h; exact h
  | cons op rest ih =>
    intro p h
    exact ih (p.applyOp op) (pool_applyOp_inv p op h).1

/-- C7 amended: provided the configuration satisfies
defaultWorkers at most maxWorkers (as every documented configuration
does), the pool size never exceeds maxWorkers after any sequence of
execute dispatches, work completions, scale requests and dispose; the
unclamped constructor breaks the bound only when defaultWorkers is
configured above maxWorkers. -/
theorem workerpool_size_bounded (d m : Nat) (ops : List PoolOp) (hdm : d ≤ m) :
    (WorkerPool.applyOps (WorkerPool.new d m) ops).workers.length
      ≤ (WorkerPool.applyOps (WorkerPool.new d m) ops).maxWorkers := by
  refine pool_applyOps_inv ops (WorkerPool.new d m) ?_
  show (List.replicate d PWState.idle).length ≤ m
  rw [List.length_replicate]
  exact hdm

theorem workerpool_size_bounded_witness :
    (WorkerPool.applyOps (WorkerPool.new 1 2)
      [PoolOp.scale 5, PoolOp.execute 0, PoolOp.execute 1, PoolOp.complete,
        PoolOp.scale (-3), PoolOp.dispose]).workers.length
      ≤ (WorkerPool.applyOps (WorkerPool.new 1 2)
      [PoolOp.scale 5, PoolOp.execute 0, PoolOp.execute 1, PoolOp.complete,
        PoolOp.scale (-3), PoolOp.dispose]).maxWorkers :=
  workerpool_size_bounded 1 2
    [PoolOp.scale 5, PoolOp.execute 0, PoolOp.execute 1, PoolOp.complete,
      PoolOp.scale (-3), PoolOp.dispose] (by decide)


/-- C8 counterexample: a task whose function spawns a worker that throws a
non-abort user error and then returns 1. The worker moves to failed with
the error recorded and Worker.start rejects, but run() resolves with 1 and
the owner task finalizes as success, not error: the worker failure never
surfaces at the awaited promise. -/
theorem worker_failure_swallowed_counterexample :
    c8Run.res = Except.ok 1 ∧
    c8Run.task.status = TaskStatus.success ∧
    c8Run.task.status ≠ TaskStatus.error ∧
    c8Run.task.workers.map (fun w => (w.status, w.error))
      = [(WorkerStatus.failed, some (ErrVal.user 7))] ∧
    (Worker.start (Worker.new "r") (.throwE (.user 7)) false).res
      = Except.error (ErrVal.user 7) := by decide

/-- C8 amended: when a running task spawns a worker whose function throws
a non-abort error, the worker moves to failed with the error recorded and
its start promise rejects with that error, but Task._spawnWorker discards
the rejection: the owner task still finalizes as success and run()
resolves normally, so the failure does not surface at the awaited
promise. -/
theorem worker_failure_swallowed (t : Task) (e : ErrVal) (v : Nat)
    (hp : t.status = .pending) (hs : t.signalAborted = false) :
    (Worker.start (Worker.new t.ref) (.throwE e) false).res = .error e ∧
    ((t.run ⟨[CtxOp.spawnWorker (.throwE e) false], .ret v⟩ false).res = .ok v ∧
     (t.run ⟨[CtxOp.spawnWorker (.throwE e) false], .ret v⟩ false).task.status
       = .success ∧
     ∃ w ∈ (t.run ⟨[CtxOp.spawnWorker (.throwE e) false], .ret v⟩ false).task.workers,
       w.status = .failed ∧ w.error = some e) := by
  constructor
  · rfl
  · have hofs : (Task.fnSettle { t with status := TaskStatus.running }
        ⟨[CtxOp.spawnWorker (.throwE e) false], .ret v⟩).2 = .ok v := by
      show (Task.applyCtxOps { t with status := TaskStatus.running }
        [CtxOp.spawnWorker (.throwE e) false]).2.elim (.ok v) Except.error = _
      rfl
    rw [run_spec t ⟨[CtxOp.spawnWorker (.throwE e) false], .ret v⟩ false hp hs, hofs]
    refine ⟨rfl, rfl, ?_⟩
    show ∃ w ∈ (Task.fnSettle { t with status := TaskStatus.running }
      ⟨[CtxOp.spawnWorker (.throwE e) false], .ret v⟩).1.workers,
      w.status = .failed ∧ w.error = some e
    refine ⟨⟨t.ref, .failed, false, some e⟩, ?_, rfl, rfl⟩
    show _ ∈ ({ t with status := TaskStatus.running } : Task).workers ++
      [(⟨t.ref, .failed, false, some e⟩ : Worker)]
    exact List.mem_append_right _ (List.mem_singleton.mpr rfl)


theorem worker_failure_swallowed_witness :
    (Worker.start (Worker.new "r") (.throwE (.user 9)) false).res
      = .error (.user 9) ∧
    (((Task.new 0 "s" "r").run
        ⟨[CtxOp.spawnWorker (.throwE (.user 9)) false], .ret 4⟩ false).res
      = .ok 4 ∧
     ((Task.new 0 "s" "r").run
        ⟨[CtxOp.spawnWorker (.throwE (.user 9)) false], .ret 4⟩ false).task.status
      = .success ∧
     ∃ w ∈ ((Task.new 0 "s" "r").run
        ⟨[CtxOp.spawnWorker (.throwE (.user 9)) false], .ret 4⟩ false).task.workers,
       w.status = .failed ∧ w.error = some (.user 9)) :=
  worker_failure_swallowed (Task.new 0 "s" "r") (.user 9) 4 rfl rfl

/-- C9 counterexample: two createTask calls on the same mounted scope with
the same explicit ref r produce two distinct Task objects (distinct
serials, i.e. distinct JavaScript objects) sharing the ref r; each was
registered when created, and the second registration silently evicts the
first task from the table without aborting it. -/
theorem duplicate_ref_counterexample :
    c9Step1.2.ref = "r" ∧
    c9Step2.2.ref = "r" ∧
    c9Step1.2.serial ≠ c9Step2.2.serial ∧
    c9Step1.2 ∈ c9Step1.1.tasks ∧
    c9Step2.2 ∈ c9Step2.1.tasks ∧
    c9Step1.2 ∉ c9Step2.1.tasks ∧
    c9Step1.2.status = .pending := by decide

/-- C9 amended: the TaskTable never holds two Tasks with the same ref at
the same instant: registration is keyed by ref, so a table whose entries
have pairwise distinct refs keeps that property under register, and the
entry carrying the ref of the registered task is exactly that task (an
earlier task with the same ref has been replaced). Distinct Task objects
sharing a ref can still exist over time, as the counterexample shows. -/
theorem tasktable_ref_unique (tbl : List Task) (t : Task)
    (hnd : List.Pairwise (fun a b => a.ref ≠ b.ref) tbl) :
    List.Pairwise (fun a b => a.ref ≠ b.ref) (TaskTable.register tbl t) ∧
    ∀ u ∈ TaskTable.register tbl t, u.ref = t.ref → u = t := by
  unfold TaskTable.register
  split
  · next hany =>
    constructor
    · refine List.Pairwise.map _ ?_ hnd
      intro a b hab
      by_cases ha : a.ref = t.ref
      · by_cases hb : b.ref = t.ref
        · exact absurd (ha.trans hb.symm) hab
        · have h1 : (if a.ref == t.ref then t else a) = t := by simp [ha]
          have h2 : (if b.ref == t.ref then t else b) = b := by simp [hb]
          rw [h1, h2, ← ha]
          exact hab
      · by_cases hb : b.ref = t.ref
        · have h1 : (if a.ref == t.ref then t else a) = a := by simp [ha]
          have h2 : (if b.ref == t.ref then t else b) = t := by simp [hb]
          rw [h1, h2, ← hb]
          exact hab
        · have h1 : (if a.ref == t.ref then t else a) = a := by simp [ha]
          have h2 : (if b.ref == t.ref then t else b) = b := by simp [hb]
          rw [h1, h2]
          exact hab
    · intro u hu hur
      rcases List.mem_map.mp hu with ⟨u0, hu0, hmap⟩
      by_cases h0 : u0.ref = t.ref
      · rw [← hmap]
        simp [h0]
      · have huu : u = u0 := by rw [← hmap]; simp [h0]
        rw [huu] at hur
        exact absurd hur h0
  · next hany =>
    have hfresh : ∀ a ∈ tbl, a.ref ≠ t.ref := by
      intro a ha hc
      exact hany (List.any_eq_true.mpr ⟨a, ha, by simp [hc]⟩)
    constructor
    · rw [List.pairwise_append]
      refine ⟨hnd, List.pairwise_singleton _ _, ?_⟩
      intro a ha b hb
      rw [List.mem_singleton.mp hb]
      exact hfresh a ha
    · intro u hu hur
      rcases List.mem_append.mp hu with hu | hu
      · exact absurd hur (hfresh u hu)
      · exact List.mem_singleton.mp hu

theorem tasktable_ref_unique_witness :
    List.Pairwise (fun a b => a.ref ≠ b.ref)
      (TaskTable.register [Task.new 0 "s" "a"] (Task.new 1 "s" "b")) ∧
    ∀ u ∈ TaskTable.register [Task.new 0 "s" "a"] (Task.new 1 "s" "b"),
      u.ref = (Task.new 1 "s" "b").ref → u = Task.new 1 "s" "b" :=
  tasktable_ref_unique [Task.new 0 "s" "a"] (Task.new 1 "s" "b")
    (List.pairwise_singleton _ _)

end Sthira
